import Mathlib

/-!
Verification development for the train-routing repository.

The Rust sources are embedded shallowly: `f64` values are modelled as exact
rationals (`ℚ`), `usize` as `ℕ`, `ndarray` matrices as lists of lists with
total accessors, the radix heap as a list popped at its first maximal key, and
the `fastrand` gates of the neighbourhood generator are factored out so that
every candidate move is enumerated deterministically.  A `usize` subtraction
that can underflow (a debug-mode panic in Rust) is modelled with `Except`.

The core rational operations are restored to their default reducibility so
that concrete runs of the embedded algorithms can be settled by `decide`.
-/

attribute [local semireducible] Rat.add Rat.mul Rat.inv Rat.sub

/-- Schedule type of a train line, from problem.rs: `Circular` goes to the
first station after the last one, `Bidirectional` repeats the track reversed. -/
inductive ScheduleType where
  | Circular
  | Bidirectional
deriving DecidableEq, Repr

/-- Modelled from the spec: the `TrainLine` struct is used by evaluate.rs,
localsearch.rs and test.rs but its declaration is missing from problem.rs in
this snapshot of the repository.  Per the spec a line is an ordered route of
station indices, a schedule type and a number `n` of trains on the line. -/
structure TrainLine where
  route : List Nat
  ty : ScheduleType
  n : Nat
deriving DecidableEq, Repr

instance : Inhabited TrainLine := ⟨⟨[], ScheduleType.Bidirectional, 1⟩⟩

/-- The problem description, with the fields accessed directly by evaluate.rs,
localsearch.rs and main.rs (`problem.n`, `problem.track_costs`, ...).  The
three matrices are n times n; entries are modelled as exact rationals. -/
structure Problem where
  n : Nat
  track_costs : List (List ℚ)
  track_times : List (List ℚ)
  travel_frequencies : List (List ℚ)
  train_price : ℚ
  total_budget : ℚ
deriving DecidableEq, Repr

/-- Total read of a rational matrix entry, 0 outside the stored shape. -/
def mget (m : List (List ℚ)) (i j : Nat) : ℚ := (m.getD i []).getD j 0

/-- Write of a rational matrix entry (no-op outside the stored shape,
matching the fact that the source never writes out of bounds). -/
def mset (m : List (List ℚ)) (i j : Nat) (v : ℚ) : List (List ℚ) :=
  m.set i ((m.getD i []).set j v)

/-- Total read of a boolean matrix entry, false outside the stored shape. -/
def bget (m : List (List Bool)) (i j : Nat) : Bool := (m.getD i []).getD j false

/-- Write of a boolean matrix entry. -/
def bset (m : List (List Bool)) (i j : Nat) (v : Bool) : List (List Bool) :=
  m.set i ((m.getD i []).set j v)

/-- The solver's solution struct from problem.rs: number of trains, the built
track matrix, the routes, the schedule types and the objective value. -/
structure Solution where
  n_trains : Nat
  built_tracks : List (List Bool)
  train_routes : List (List Nat)
  train_types : List ScheduleType
  obj_value : ℚ
deriving DecidableEq, Repr

/-- The cost expression computed inline by `Solution::check_feasibility` in
problem.rs: the elementwise product of the 0/1 mask of `built_tracks` with
`track_costs`, summed over the whole matrix and halved, plus
`n_trains * train_price`. -/
def Solution.feasCost (s : Solution) (p : Problem) : ℚ :=
  (∑ i ∈ Finset.range p.n, ∑ j ∈ Finset.range p.n,
    (if bget s.built_tracks i j then (1 : ℚ) else 0) * mget p.track_costs i j) / 2
  + (s.n_trains : ℚ) * p.train_price

/-- `Solution::check_feasibility` from problem.rs: the two length-consistency
checks conjoined with the budget check. -/
def Solution.check_feasibility (s : Solution) (p : Problem) : Bool :=
  decide (s.n_trains = s.train_routes.length) &&
  decide (s.n_trains = s.train_types.length) &&
  decide (s.feasCost p ≤ p.total_budget)

/-- Direction a simulated train is travelling in, from evaluate.rs. -/
inductive TravelDirection where
  | Forward
  | Backward
deriving DecidableEq, Repr

/-- Priority-queue node of the evaluator, from evaluate.rs. -/
structure QueueNode where
  station : Nat
  train : Nat
  score : ℚ
  direction : TravelDirection
  train_schedule_progress : Nat
  has_switched : Bool
  total_lines : Nat
deriving DecidableEq, Repr

/-- The body of `impl Ord for QueueNode` exactly as written in evaluate.rs:
`other.score.total_cmp(&other.score)` (the Rust `total_cmp` on two equal
finite scores is ordinary comparison, modelled by `compare` on ℚ). -/
def QueueNode.cmp (self other : QueueNode) : Ordering :=
  compare other.score other.score

/-- Large constant penalty for disconnect between stations, from evaluate.rs. -/
def DEFAULT_TRAVEL_TIME : ℚ := 10000000000

/-- Sum of the consecutive track times along a line's route, the first summand
of the cycle time in evaluate.rs. -/
def routeTimeSum (p : Problem) (line : TrainLine) : ℚ :=
  ∑ i ∈ Finset.range (line.route.length - 1),
    mget p.track_times (line.route.getD i 0) (line.route.getD (i + 1) 0)

/-- Total cycle time of a line as computed for `train_delays` in evaluate.rs:
the consecutive track times, plus the wrap entry between the first and last
stop only when the line is `Circular`. -/
def cycleTime (p : Problem) (line : TrainLine) : ℚ :=
  routeTimeSum p line +
  (if line.ty = ScheduleType.Circular then
    mget p.track_times (line.route.getD 0 0) (line.route.getD (line.route.length - 1) 0)
  else 0)

/-- Expected waiting time for a line, from evaluate.rs:
half the cycle time divided by the number of trains. -/
def trainDelay (p : Problem) (line : TrainLine) : ℚ :=
  cycleTime p line / (2 * (line.n : ℚ))

/-- The next schedule position for a rider staying on its train, from
evaluate.rs: moving `Forward` past the last stop wraps to position 0 and
moving `Backward` past position 0 wraps to the last position, for every
schedule type. -/
def nextStationPos (lines : List TrainLine) (nd : QueueNode) : Nat :=
  let route := (lines.getD nd.train default).route
  match nd.direction with
  | TravelDirection.Forward =>
      if nd.train_schedule_progress + 1 < route.length then nd.train_schedule_progress + 1 else 0
  | TravelDirection.Backward =>
      if 0 < nd.train_schedule_progress then nd.train_schedule_progress - 1 else route.length - 1

/-- The node pushed for a commuter staying on the same train, from
evaluate.rs: pushed only when the next station is still unvisited, charged the
`track_times` entry between the current and next station. -/
def rideSuccessors (p : Problem) (lines : List TrainLine) (unvisited : List Nat)
    (nd : QueueNode) : List QueueNode :=
  let pos := nextStationPos lines nd
  let next_station := (lines.getD nd.train default).route.getD pos 0
  if unvisited.contains next_station then
    [{ station := next_station, train := nd.train,
       score := nd.score + mget p.track_times nd.station next_station,
       direction := nd.direction, train_schedule_progress := pos,
       has_switched := false, total_lines := nd.total_lines }]
  else []

/-- The nodes pushed for a commuter switching trains, from evaluate.rs: no
switch is generated when `has_switched` is set; otherwise for every other line
through the current station a `Forward` node is pushed, and also a `Backward`
node when that line is `Bidirectional`; each is charged the target line's
delay and carries `has_switched := true` and an incremented `total_lines`. -/
def switchSuccessors (delays : List ℚ) (lines : List TrainLine) (nd : QueueNode) :
    List QueueNode :=
  if nd.has_switched then [] else
  (lines.enum.filter (fun tl => decide (tl.1 ≠ nd.train) && tl.2.route.contains nd.station)).flatMap
    (fun tl =>
      let pos := tl.2.route.findIdx (fun x => x == nd.station)
      let fwd : QueueNode :=
        { station := nd.station, train := tl.1, score := nd.score + delays.getD tl.1 0,
          direction := TravelDirection.Forward, train_schedule_progress := pos,
          has_switched := true, total_lines := nd.total_lines + 1 }
      fwd :: (if tl.2.ty = ScheduleType.Bidirectional then
        [{ fwd with direction := TravelDirection.Backward }] else []))

/-- All nodes pushed while expanding one popped node, in push order:
the stay-on-train node first, then the switch nodes. -/
def expandNode (p : Problem) (lines : List TrainLine) (delays : List ℚ)
    (unvisited : List Nat) (nd : QueueNode) : List QueueNode :=
  rideSuccessors p lines unvisited nd ++ switchSuccessors delays lines nd

/-- Pop of the radix heap: removes the entry with the maximal key (the heap is
keyed by the negated score, so this is the minimal score), first pushed wins
among equal keys. -/
def popMax : List (ℚ × QueueNode) → Option ((ℚ × QueueNode) × List (ℚ × QueueNode))
  | [] => none
  | x :: xs =>
    match popMax xs with
    | none => some (x, [])
    | some (m, rest) => if x.1 < m.1 then some (m, x :: rest) else some (x, xs)

/-- State of one origin's best-first search in evaluate.rs. -/
structure SearchState where
  queue : List (ℚ × QueueNode)
  unvisited : List Nat
  prev_states : List (Nat × Nat × TravelDirection)
  times : List (List ℚ)

/-- The shortcut pass of evaluate.rs: filters the unvisited list, and for each
unvisited station already known to be reachable from the popped node's station
records origin-to-station times through the popped node, in list order. -/
def shortcutStep (origin : Nat) (nd : QueueNode) :
    List Nat → List (List ℚ) → List (List ℚ) × List Nat
  | [], times => (times, [])
  | u :: rest, times =>
    if mget times nd.station u < DEFAULT_TRAVEL_TIME then
      let v := nd.score + mget times nd.station u
      let times1 := mset (mset times origin u v) u origin v
      let res := shortcutStep origin nd rest times1
      (res.1, res.2)
    else
      let res := shortcutStep origin nd rest times
      (res.1, u :: res.2)

/-- The `while let Some((_, n)) = queue.pop()` loop of evaluate.rs for one
origin, with fuel for termination (one unit per pop; the real loop pops each
pushed node at most once, so ample fuel reproduces it exactly).  The loop
breaks when the queue or the unvisited list is empty or a node with
`total_lines >= 3` is popped past its visit bookkeeping. -/
def searchLoop (p : Problem) (lines : List TrainLine) (delays : List ℚ) (origin : Nat) :
    Nat → SearchState → List (List ℚ)
  | 0, st => st.times
  | fuel + 1, st =>
    match popMax st.queue with
    | none => st.times
    | some (kn, queue1) =>
      let nd := kn.2
      if st.unvisited.isEmpty then st.times
      else
        let visited := st.unvisited.contains nd.station
        let times1 :=
          if visited then mset (mset st.times origin nd.station nd.score) nd.station origin nd.score
          else st.times
        let unvisited1 := if visited then st.unvisited.erase nd.station else st.unvisited
        if st.prev_states.contains (nd.station, nd.train, nd.direction) then
          searchLoop p lines delays origin fuel ⟨queue1, unvisited1, st.prev_states, times1⟩
        else
          let prev1 := (nd.station, nd.train, nd.direction) :: st.prev_states
          if 3 ≤ nd.total_lines then times1
          else
            let stepped := shortcutStep origin nd unvisited1 times1
            let pushes := (expandNode p lines delays stepped.2 nd).map (fun m => (-m.score, m))
            searchLoop p lines delays origin fuel ⟨queue1 ++ pushes, stepped.2, prev1, stepped.1⟩

/-- The start nodes for one origin, from evaluate.rs: for every line through
the origin a `Forward` node at the origin's position in the route, plus a
`Backward` node when the line is `Bidirectional`, all at score 0. -/
def seedNodes (lines : List TrainLine) (station : Nat) : List (ℚ × QueueNode) :=
  (lines.enum.filter (fun tl => tl.2.route.contains station)).flatMap (fun tl =>
    let pos := tl.2.route.findIdx (fun x => x == station)
    let fwd : QueueNode := ⟨station, tl.1, 0, TravelDirection.Forward, pos, false, 1⟩
    ((0 : ℚ), fwd) ::
      (if tl.2.ty = ScheduleType.Bidirectional then
        [((0 : ℚ), { fwd with direction := TravelDirection.Backward })] else []))

/-- Fuel for one origin's search loop; far more than the number of pops any
run in this development performs. -/
def evalFuel : Nat := 1000

/-- `evaluate` from evaluate.rs: computes the per-line delays, initialises the
travel-time matrix at the disconnect penalty, runs the best-first search from
every origin over the unvisited stations at or above that origin, and returns
half the sum of the elementwise product with the travel frequencies. -/
def evaluate (p : Problem) (train_lines : List TrainLine) : ℚ :=
  let delays := train_lines.map (trainDelay p)
  let times0 := p.travel_frequencies.map (fun row => row.map (fun _ => DEFAULT_TRAVEL_TIME))
  let times := (List.range p.n).foldl (fun times station =>
    searchLoop p train_lines delays station evalFuel
      ⟨seedNodes train_lines station, List.range' station (p.n - station), [], times⟩) times0
  (∑ i ∈ Finset.range p.n, ∑ j ∈ Finset.range p.n,
    mget times i j * mget p.travel_frequencies i j) / 2

/-- `big_loop` from baseline.rs: one line visiting every station in index
order with one train; marks every consecutive track pair built and
unconditionally also the wrap pair (0, n-1), for both schedule types.  Its
objective value is the evaluator's result on the single line (the baseline
calls the evaluator on the route/type pair with its one train). -/
def big_loop (p : Problem) (ty : ScheduleType) : Solution :=
  let bt0 : List (List Bool) := (List.range p.n).map (fun _ => (List.range p.n).map (fun _ => false))
  let bt1 := (List.range (p.n - 1)).foldl (fun m i => bset (bset m i (i + 1) true) (i + 1) i true) bt0
  let bt2 := bset (bset bt1 0 (p.n - 1) true) (p.n - 1) 0 true
  { n_trains := 1, built_tracks := bt2, train_routes := [List.range p.n],
    train_types := [ty], obj_value := evaluate p [⟨List.range p.n, ty, 1⟩] }

/-- The `TrainTrackIterator` of localsearch.rs, materialised as the list it
yields: every consecutive stop pair of the route, and for a `Circular` line
additionally the pair of the first and last stop, yielded last. -/
def trainTracks (l : TrainLine) : List (Nat × Nat) :=
  (List.range (l.route.length - 1)).map (fun i => (l.route.getD i 0, l.route.getD (i + 1) 0)) ++
  (if l.ty = ScheduleType.Circular then
    [(l.route.getD 0 0, l.route.getD (l.route.length - 1) 0)] else [])

/-- The unordered-pair test used throughout localsearch.rs:
a yielded track (a, b) matches stations (i, j) in either orientation. -/
def tracksMatch (i j : Nat) (ab : Nat × Nat) : Bool :=
  (ab.1 == i && ab.2 == j) || (ab.1 == j && ab.2 == i)

/-- Whether some line's track iterator yields the unordered pair (i, j);
the inner double loop of `calc_cost` and of the track-retirement scans. -/
def anyLineUses (lines : List TrainLine) (i j : Nat) : Bool :=
  lines.any (fun l => (trainTracks l).any (tracksMatch i j))

/-- A candidate solution during search, from localsearch.rs. -/
structure WorkingSolution where
  train_lines : List TrainLine
  cost : ℚ
  built_tracks : List (List Bool)
deriving DecidableEq, Repr

/-- `WorkingSolution::calc_cost` from localsearch.rs: the train operating cost
plus, for every ordered station pair (i, j) with i, j below n, the
construction cost of (i, j) when some line's track iterator yields that pair
in either orientation (the labelled `continue` charges each ordered pair at
most once, so each unordered built pair is charged twice). -/
def WorkingSolution.calc_cost (sol : WorkingSolution) (p : Problem) : ℚ :=
  (sol.train_lines.map (fun l => (l.n : ℚ))).sum * p.train_price +
  ∑ i ∈ Finset.range p.n, ∑ j ∈ Finset.range p.n,
    (if anyLineUses sol.train_lines i j then mget p.track_costs i j else 0)

/-- The clone-a-line move of `generate_neighbours`: appends a copy of line i;
the cached cost grows by that line's trains only. -/
def cloneLineNeighbour (p : Problem) (sol : WorkingSolution) (i : Nat) : WorkingSolution :=
  { train_lines := sol.train_lines ++ [sol.train_lines.getD i default],
    cost := sol.cost + ((sol.train_lines.getD i default).n : ℚ) * p.train_price,
    built_tracks := sol.built_tracks }

/-- Rust `Vec::swap_remove(i)`: removes index i by moving the last element
into its place. -/
def swapRemove (l : List TrainLine) (i : Nat) : List TrainLine :=
  match l.getLast? with
  | none => []
  | some last => if i + 1 = l.length then l.dropLast else (l.set i last).dropLast

/-- The remove-a-line move of `generate_neighbours`: drops line i, scans all
ordered pairs retiring tracks no remaining line uses and crediting their cost
together with the removed trains; the neighbour is pushed with the original
`built_tracks` (the code clones and updates a matrix but pushes
`self.built_tracks.clone()`, exactly as embedded here). -/
def removeLineNeighbour (p : Problem) (sol : WorkingSolution) (i : Nat) : WorkingSolution :=
  let removed := sol.train_lines.getD i default
  let cloned_lines := swapRemove sol.train_lines i
  let pairs := (List.range p.n).flatMap (fun a => (List.range p.n).map (fun b => (a, b)))
  let res := pairs.foldl (fun acc ij =>
    if bget acc.1 ij.1 ij.2 then
      if anyLineUses cloned_lines ij.1 ij.2 then acc
      else (bset (bset acc.1 ij.1 ij.2 false) ij.2 ij.1 false,
            acc.2 + mget p.track_costs ij.1 ij.2)
    else acc) (sol.built_tracks, (removed.n : ℚ) * p.train_price)
  { train_lines := cloned_lines, cost := sol.cost - res.2, built_tracks := sol.built_tracks }

/-- The add-a-stop move of `generate_neighbours`: inserts station s at
position `index` of line i's route; the connection checks index
`built_tracks` by route positions, and the pushed neighbour's `cost` is only
the incremental `additional_cost`, both exactly as in the source. -/
def addStopNeighbour (p : Problem) (sol : WorkingSolution) (i s index : Nat) : WorkingSolution :=
  let oldLine := sol.train_lines.getD i default
  let newRoute := oldLine.route.insertIdx index s
  let newLine := { oldLine with route := newRoute }
  let cloned_lines := sol.train_lines.set i newLine
  let bt := sol.built_tracks
  let conns :=
    (if 0 < index ∧ bget bt index (index - 1) = false then [(index, index - 1)] else []) ++
    (if index < newRoute.length - 1 ∧ bget bt index (index + 1) = false then
      [(index, index + 1)] else []) ++
    (if (index = 0 ∨ index = newRoute.length - 1) ∧ newLine.ty = ScheduleType.Circular then
      [(0, newRoute.length - 1)] else [])
  let res := conns.foldl (fun acc ab =>
    let a := newRoute.getD ab.1 0
    let b := newRoute.getD ab.2 0
    if bget acc.1 a b then acc
    else (bset (bset acc.1 a b true) b a true, acc.2 + mget p.track_costs a b)) (bt, (0 : ℚ))
  { train_lines := cloned_lines, cost := res.2, built_tracks := res.1 }

/-- The remove-a-stop move of `generate_neighbours`: gathers the connection
positions before the removal (with the same position-indexed built checks as
the source), removes the stop, then retires each gathered track not needed by
any remaining line, crediting its cost. -/
def removeStopNeighbour (p : Problem) (sol : WorkingSolution) (i index : Nat) : WorkingSolution :=
  let oldLine := sol.train_lines.getD i default
  let bt := sol.built_tracks
  let conns :=
    (if 0 < index ∧ bget bt index (index - 1) = false then [(index, index - 1)] else []) ++
    (if index < oldLine.route.length - 1 ∧ bget bt index (index + 1) = false then
      [(index, index + 1)] else []) ++
    (if (index = 0 ∨ index = oldLine.route.length - 1) ∧ oldLine.ty = ScheduleType.Circular then
      [(0, oldLine.route.length - 1)] else [])
  let newLine := { oldLine with route := oldLine.route.eraseIdx index }
  let cloned_lines := sol.train_lines.set i newLine
  let res := conns.foldl (fun acc ab =>
    let a := oldLine.route.getD ab.1 0
    let b := oldLine.route.getD ab.2 0
    if anyLineUses cloned_lines a b then acc
    else (bset (bset acc.1 a b false) b a false, acc.2 + mget p.track_costs a b)) (bt, (0 : ℚ))
  { train_lines := cloned_lines, cost := sol.cost - res.2, built_tracks := res.1 }

/-- The add-a-train move of `generate_neighbours`. -/
def incTrainsNeighbour (p : Problem) (sol : WorkingSolution) (i : Nat) : WorkingSolution :=
  let oldLine := sol.train_lines.getD i default
  { train_lines := sol.train_lines.set i { oldLine with n := oldLine.n + 1 },
    cost := sol.cost + p.train_price, built_tracks := sol.built_tracks }

/-- The remove-a-train move of `generate_neighbours` (generated only when the
line keeps at least one train). -/
def decTrainsNeighbour (p : Problem) (sol : WorkingSolution) (i : Nat) : WorkingSolution :=
  let oldLine := sol.train_lines.getD i default
  { train_lines := sol.train_lines.set i { oldLine with n := oldLine.n - 1 },
    cost := sol.cost - p.train_price, built_tracks := sol.built_tracks }

/-- The change-schedule-type move of `generate_neighbours`: toggling to
`Circular` builds the wrap track between the route's first and last stop if
absent; toggling to `Bidirectional` retires it when no line still uses it. -/
def changeTypeNeighbour (p : Problem) (sol : WorkingSolution) (i : Nat) : WorkingSolution :=
  let oldLine := sol.train_lines.getD i default
  let a := oldLine.route.getD 0 0
  let b := oldLine.route.getD (oldLine.route.length - 1) 0
  match oldLine.ty with
  | ScheduleType.Bidirectional =>
    let cloned_lines := sol.train_lines.set i { oldLine with ty := ScheduleType.Circular }
    if bget sol.built_tracks a b then
      { train_lines := cloned_lines, cost := sol.cost, built_tracks := sol.built_tracks }
    else
      { train_lines := cloned_lines, cost := sol.cost + mget p.track_costs a b,
        built_tracks := bset (bset sol.built_tracks a b true) b a true }
  | ScheduleType.Circular =>
    let cloned_lines := sol.train_lines.set i { oldLine with ty := ScheduleType.Bidirectional }
    if anyLineUses cloned_lines a b then
      { train_lines := cloned_lines, cost := sol.cost, built_tracks := sol.built_tracks }
    else
      { train_lines := cloned_lines, cost := sol.cost - mget p.track_costs a b,
        built_tracks := bset (bset sol.built_tracks a b false) b a false }

/-- `generate_neighbours` from localsearch.rs with every `fastrand` gate
accepting: the full batch of candidate moves in generation order (clone line,
remove line when at least two remain, add stop at the position drawn by
`insertIdx`, remove stop from lines of length at least three, adjust train
counts, toggle schedule types).  A run of the source produces a subset of this
list selected by the `neighbour_chance` coin flips. -/
def generateNeighboursFull (p : Problem) (sol : WorkingSolution)
    (insertIdx : Nat → Nat → Nat) : List WorkingSolution :=
  let len := sol.train_lines.length
  ((List.range len).map (cloneLineNeighbour p sol)) ++
  (if 1 < len then (List.range len).map (removeLineNeighbour p sol) else []) ++
  ((List.range len).flatMap (fun i =>
    ((List.range p.n).filter
      (fun x => !((sol.train_lines.getD i default).route.contains x))).map
      (fun s => addStopNeighbour p sol i s (insertIdx i s)))) ++
  ((List.range len).flatMap (fun i =>
    if (sol.train_lines.getD i default).route.length < 3 then []
    else (List.range (sol.train_lines.getD i default).route.length).map
      (removeStopNeighbour p sol i))) ++
  ((List.range len).flatMap (fun i =>
    incTrainsNeighbour p sol i ::
      (if 1 < (sol.train_lines.getD i default).n then [decTrainsNeighbour p sol i] else []))) ++
  ((List.range len).map (changeTypeNeighbour p sol))

/-- The per-iteration candidate filter of `Solver::solve` in localsearch.rs:
keeps the neighbours whose line list is not tabu and whose from-scratch
`calc_cost` is within the total budget. -/
def allowedNeighbours (p : Problem) (tabuKeys : List (List TrainLine))
    (nbs : List WorkingSolution) : List WorkingSolution :=
  nbs.filter (fun nb =>
    !(tabuKeys.any (fun k => decide (k = nb.train_lines))) &&
    decide (nb.calc_cost p ≤ p.total_budget))

/-- Modelled from the spec: `Solution::cost`, called by `WorkingSolution::new`
and by test.rs, is missing from problem.rs in this snapshot.  Per the spec it
is the sum of built track construction costs (each unordered pair once, i.e.
half the full symmetric masked sum) plus the train count times the price. -/
def Solution.cost (s : Solution) (p : Problem) : ℚ :=
  (∑ i ∈ Finset.range p.n, ∑ j ∈ Finset.range p.n,
    (if bget s.built_tracks i j then (1 : ℚ) else 0) * mget p.track_costs i j) / 2
  + (s.n_trains : ℚ) * p.train_price

/-- `WorkingSolution::new` from localsearch.rs: seeds the search with the
bidirectional `big_loop` baseline, caching the baseline's cost; the baseline's
line list is its single route/type as one `TrainLine` with one train. -/
def WorkingSolution.new (p : Problem) : WorkingSolution :=
  let base := big_loop p ScheduleType.Bidirectional
  { train_lines := [⟨List.range p.n, ScheduleType.Bidirectional, 1⟩],
    cost := base.cost p,
    built_tracks := base.built_tracks }

/-- The solution struct returned by `Solver::solve` in localsearch.rs
(line 322): built tracks, line list and objective value. -/
structure SolutionLS where
  built_tracks : List (List Bool)
  train_lines : List TrainLine
  obj_value : ℚ
deriving DecidableEq, Repr

/-- `Solver::solve` from localsearch.rs specialised to `max_iterations = 0`:
the iteration loop body never runs, so the returned solution is the
`WorkingSolution::new` baseline with its evaluated score and no budget check
is ever performed. -/
def solveIterZero (p : Problem) : SolutionLS :=
  let solution := WorkingSolution.new p
  let best_score := evaluate p solution.train_lines
  { built_tracks := solution.built_tracks, train_lines := solution.train_lines,
    obj_value := best_score }

/-- The construction-plus-train cost of a returned solution, as the spec
defines budget feasibility: half the symmetric masked track-cost sum plus the
total trains of the line list times the train price. -/
def SolutionLS.totalCost (s : SolutionLS) (p : Problem) : ℚ :=
  (∑ i ∈ Finset.range p.n, ∑ j ∈ Finset.range p.n,
    (if bget s.built_tracks i j then (1 : ℚ) else 0) * mget p.track_costs i j) / 2
  + (s.train_lines.map (fun l => (l.n : ℚ))).sum * p.train_price

/-- The from-scratch built-track matrix of a line set: entry (i, j) is true
iff some line's track iterator yields the unordered pair (i, j). -/
def builtFromLines (n : Nat) (lines : List TrainLine) : List (List Bool) :=
  (List.range n).map (fun i => (List.range n).map (fun j => anyLineUses lines i j))

/-- The once-counted construction cost implied by a line set: each unordered
built pair charged once (indices i strictly below j). -/
def onceTrackCost (p : Problem) (lines : List TrainLine) : ℚ :=
  ∑ i ∈ Finset.range p.n, ∑ j ∈ Finset.range p.n,
    (if i < j ∧ anyLineUses lines i j then mget p.track_costs i j else 0)

/-- The once-counted construction-plus-train cost of a working solution,
recomputed from scratch from its line set. -/
def onceCost (p : Problem) (sol : WorkingSolution) : ℚ :=
  (sol.train_lines.map (fun l => (l.n : ℚ))).sum * p.train_price +
  onceTrackCost p sol.train_lines

/-- Tabu search parameters from localsearch/metaheuristic.rs. -/
structure TabuParams where
  initial_timeout : Nat
  size_adjust : Nat
deriving DecidableEq, Repr

/-- The `TabuSearch` strategy state from localsearch/metaheuristic.rs; the
hash map from line lists to insertion times is modelled as an association
list. -/
structure TabuSearch where
  tabu : List (List TrainLine × Nat)
  params : TabuParams
  tabu_timeout : Nat
deriving DecidableEq, Repr

/-- `TabuSearch::new`: empty tabu map, timeout at the initial timeout. -/
def TabuSearch.new (params : TabuParams) : TabuSearch :=
  ⟨[], params, params.initial_timeout⟩

/-- Rust `Iterator::min_by` with `total_cmp` on the scores: the first
minimal-score element, or none on an empty list. -/
def minByScore : List (WorkingSolution × ℚ) → Option (WorkingSolution × ℚ)
  | [] => none
  | x :: xs =>
    match minByScore xs with
    | none => some x
    | some m => if m.2 < x.2 then some m else some x

/-- The `self.tabu.retain(|_, v| *v + self.tabu_timeout >= time)` pass of
`TabuSearch::choose_update`. -/
def tabuRetain (st : TabuSearch) (time : Nat) : List (List TrainLine × Nat) :=
  st.tabu.filter (fun kv => decide (time ≤ kv.2 + st.tabu_timeout))

/-- The branch structure of `TabuSearch::choose_update` after the minimal
scored candidate has been selected (or found absent): on a choice, shrinks
the timeout by `size_adjust` when the score is strictly worse than
`prev_score` and the timeout exceeds `size_adjust`, otherwise grows it by
`size_adjust`, and records the chosen line list; on no choice it decrements
the timeout by `size_adjust` with no guard — the `usize` underflow this can
cause (a panic in a debug build) is modelled by `Except.error`. -/
def chooseUpdateCore (st : TabuSearch) (tabu1 : List (List TrainLine × Nat))
    (choice : Option (WorkingSolution × ℚ)) (prev_score : ℚ) (time : Nat) :
    Except Unit (TabuSearch × Option (WorkingSolution × ℚ)) :=
  match choice with
  | some sc =>
    Except.ok (⟨(sc.1.train_lines, time) :: tabu1, st.params,
      if prev_score < sc.2 ∧ st.params.size_adjust < st.tabu_timeout then
        st.tabu_timeout - st.params.size_adjust
      else st.tabu_timeout + st.params.size_adjust⟩, some sc)
  | none =>
    if st.params.size_adjust ≤ st.tabu_timeout then
      Except.ok (⟨tabu1, st.params, st.tabu_timeout - st.params.size_adjust⟩, none)
    else Except.error ()

/-- `TabuSearch::choose_update` from localsearch/metaheuristic.rs: retains the
unexpired tabu entries, evaluates the candidates whose line lists are not
tabu, takes the first minimal score, and applies the timeout/tabu update of
`chooseUpdateCore`. -/
def chooseUpdate (p : Problem) (st : TabuSearch) (candidates : List WorkingSolution)
    (prev_score : ℚ) (time : Nat) :
    Except Unit (TabuSearch × Option (WorkingSolution × ℚ)) :=
  let tabu1 := tabuRetain st time
  let scored := (candidates.filter
      (fun c => !(tabu1.any (fun kv => decide (kv.1 = c.train_lines))))).map
    (fun nb => (nb, evaluate p nb.train_lines))
  chooseUpdateCore st tabu1 (minByScore scored) prev_score time

/-- Number of switch edges an expansion step contributes: 1 when the produced
node was pushed by the switch arm (its `has_switched` flag is set), else 0. -/
def switchFlag (m : QueueNode) : Nat := if m.has_switched then 1 else 0

/-- A path of queue-node expansions in the evaluator: starting from a node,
repeatedly expand a node the loop is allowed to expand (its `total_lines` is
below 3, the loop's break bound) and step to one of the nodes it pushes, for
some unvisited set at that iteration; the index counts switch edges taken. -/
inductive ExpPath (p : Problem) (lines : List TrainLine) (delays : List ℚ) :
    QueueNode → QueueNode → Nat → Prop where
  | refl (nd : QueueNode) : ExpPath p lines delays nd nd 0
  | step (a b c : QueueNode) (k : Nat) (unvisited : List Nat) :
      ExpPath p lines delays a b k → b.total_lines < 3 →
      c ∈ expandNode p lines delays unvisited b →
      ExpPath p lines delays a c (k + switchFlag c)

/-! Concrete instances used by the claim theorems. -/

/-- The 3-station triangle problem of the spec's baseline scenario (the data
`save_example_problem` in main.rs writes to test_problem.toml). -/
def p3 : Problem :=
  { n := 3,
    track_costs := [[0, 1, 2], [1, 0, 3], [2, 3, 0]],
    track_times := [[0, 3, 2], [3, 0, 4], [2, 4, 0]],
    travel_frequencies := [[0, 5, 1], [5, 0, 2], [1, 2, 0]],
    train_price := 10, total_budget := 1000 }

/-- The triangle problem with a zero budget. -/
def p3b0 : Problem := { p3 with total_budget := 0 }

/-- A minimal 2-station problem. -/
def p2 : Problem :=
  { n := 2, track_costs := [[0, 1], [1, 0]], track_times := [[0, 1], [1, 0]],
    travel_frequencies := [[0, 1], [1, 0]], train_price := 10, total_budget := 1000 }

/-- A working solution on `p2`: one bidirectional line over both stations,
one train, track 0-1 built, cached cost 1 + 10 = 11. -/
def ws1 : WorkingSolution :=
  ⟨[⟨[0, 1], ScheduleType.Bidirectional, 1⟩], 11, [[false, true], [true, false]]⟩

/-- A working solution on `p3` with two bidirectional lines 0-1 and 1-2,
tracks 0-1 and 1-2 built, cached cost 1 + 3 + 2 * 10 = 24. -/
def ws2 : WorkingSolution :=
  ⟨[⟨[0, 1], ScheduleType.Bidirectional, 1⟩, ⟨[1, 2], ScheduleType.Bidirectional, 1⟩], 24,
   [[false, true, false], [true, false, true], [false, true, false]]⟩

/-- The single bidirectional triangle line of the baseline scenario. -/
def lines3 : List TrainLine := [⟨[0, 1, 2], ScheduleType.Bidirectional, 1⟩]

/-- A queue node riding `lines3` at station 2, the last stop, moving Forward. -/
def ndw : QueueNode := ⟨2, 0, 0, TravelDirection.Forward, 2, false, 1⟩

/-- Three identical bidirectional lines over the two stations of `p2`. -/
def lines3x : List TrainLine :=
  [⟨[0, 1], ScheduleType.Bidirectional, 1⟩, ⟨[0, 1], ScheduleType.Bidirectional, 1⟩,
   ⟨[0, 1], ScheduleType.Bidirectional, 1⟩]

/-- The evaluator delays of `lines3x` on `p2` (each 1/2). -/
def delays3x : List ℚ := lines3x.map (trainDelay p2)

/-- A seed node on line 0 of `lines3x` at station 0. -/
def n0 : QueueNode := ⟨0, 0, 0, TravelDirection.Forward, 0, false, 1⟩

/-- The node obtained from `n0` by switching to line 1. -/
def n1 : QueueNode := ⟨0, 1, 1/2, TravelDirection.Forward, 0, true, 2⟩

/-- The node obtained from `n1` by riding line 1 to station 1. -/
def n2 : QueueNode := ⟨1, 1, 3/2, TravelDirection.Forward, 1, false, 2⟩

/-- The node obtained from `n2` by switching a second time, to line 2. -/
def n3 : QueueNode := ⟨1, 2, 2, TravelDirection.Forward, 1, true, 3⟩

/-- Two queue nodes that differ only in score. -/
def qa : QueueNode := ⟨0, 0, 0, TravelDirection.Forward, 0, false, 1⟩

/-- A node with score 1, strictly above the score of `qa`. -/
def qb : QueueNode := ⟨0, 0, 1, TravelDirection.Forward, 0, false, 1⟩

/-! Helper lemmas shared by the claim theorems. -/

/-- A node produced by expanding `b` has `b`'s `total_lines` plus one exactly
when it is a switch node (its `has_switched` flag is set). -/
theorem expandNode_total_lines (p : Problem) (lines : List TrainLine) (delays : List ℚ)
    (unvisited : List Nat) (b c : QueueNode)
    (h : c ∈ expandNode p lines delays unvisited b) :
    c.total_lines = b.total_lines + switchFlag c := by
  unfold expandNode at h
  rcases List.mem_append.1 h with h1 | h2
  · simp only [rideSuccessors] at h1
    split at h1
    · rcases List.mem_singleton.1 h1 with rfl
      simp [switchFlag]
    · simp at h1
  · simp only [switchSuccessors] at h2
    split at h2
    · simp at h2
    · rcases List.mem_flatMap.1 h2 with ⟨tl, htl, hc⟩
      rcases List.mem_cons.1 hc with rfl | hc2
      · simp [switchFlag]
      · split at hc2
        · rcases List.mem_singleton.1 hc2 with rfl
          simp [switchFlag]
        · simp at hc2

/-- Along any expansion path, the final node's `total_lines` is the start
node's `total_lines` plus the number of switch edges taken. -/
theorem ExpPath_total_lines (p : Problem) (lines : List TrainLine) (delays : List ℚ)
    (a b : QueueNode) (k : Nat) (h : ExpPath p lines delays a b k) :
    b.total_lines = a.total_lines + k := by
  induction h with
  | refl => simp
  | step y z kk uv hp hlt hmem ih =>
    have hz := expandNode_total_lines p lines delays uv y z hmem
    omega

/-- The half of a symmetric masked matrix sum equals the once-counted sum over
index pairs i strictly below j, when the mask and the summand are symmetric
and the summand vanishes on the diagonal. -/
theorem half_masked_once (n : Nat) (B : Nat → Nat → Bool) (C : Nat → Nat → ℚ)
    (hsymC : ∀ i ∈ Finset.range n, ∀ j ∈ Finset.range n, C i j = C j i)
    (hsymB : ∀ i ∈ Finset.range n, ∀ j ∈ Finset.range n, B i j = B j i)
    (hdiag : ∀ i ∈ Finset.range n, C i i = 0) :
    (∑ i ∈ Finset.range n, ∑ j ∈ Finset.range n, (if B i j then C i j else 0)) / 2 =
    ∑ i ∈ Finset.range n, ∑ j ∈ Finset.range n, (if i < j ∧ B i j then C i j else 0) := by
  have hsplit : (∑ i ∈ Finset.range n, ∑ j ∈ Finset.range n, (if B i j then C i j else 0)) =
      (∑ i ∈ Finset.range n, ∑ j ∈ Finset.range n, (if i < j ∧ B i j then C i j else 0)) +
      (∑ i ∈ Finset.range n, ∑ j ∈ Finset.range n, (if j < i ∧ B i j then C i j else 0)) +
      (∑ i ∈ Finset.range n, ∑ j ∈ Finset.range n,
        (if i = j then (if B i j then C i j else 0) else 0)) := by
    rw [← Finset.sum_add_distrib, ← Finset.sum_add_distrib]
    apply Finset.sum_congr rfl
    intro i _
    rw [← Finset.sum_add_distrib, ← Finset.sum_add_distrib]
    apply Finset.sum_congr rfl
    intro j _
    rcases lt_trichotomy i j with hlt | heq | hgt
    · have h2 : ¬ j < i := Nat.lt_asymm hlt
      have h3 : i ≠ j := Nat.ne_of_lt hlt
      simp [hlt, h2, h3]
    · subst heq
      simp
    · have h2 : ¬ i < j := Nat.lt_asymm hgt
      have h3 : i ≠ j := (Nat.ne_of_lt hgt).symm
      simp [hgt, h2, h3]
  have hdiagsum : (∑ i ∈ Finset.range n, ∑ j ∈ Finset.range n,
      (if i = j then (if B i j then C i j else 0) else 0)) = 0 := by
    apply Finset.sum_eq_zero
    intro i hi
    rw [Finset.sum_ite_eq]
    simp [hi, hdiag i hi]
  have hswap : (∑ i ∈ Finset.range n, ∑ j ∈ Finset.range n,
      (if j < i ∧ B i j then C i j else 0)) =
      (∑ i ∈ Finset.range n, ∑ j ∈ Finset.range n, (if i < j ∧ B i j then C i j else 0)) := by
    rw [Finset.sum_comm]
    apply Finset.sum_congr rfl
    intro x hx
    apply Finset.sum_congr rfl
    intro y hy
    simp only [hsymB y hy x hx, hsymC y hy x hx]
  rw [hsplit, hdiagsum, hswap]
  ring

/-- Extracts the timeout update of the some-candidate branch of
`chooseUpdateCore`: shrink exactly when the score is strictly worse and the
timeout strictly exceeds the step (giving a positive result), grow in every
other case. -/
theorem chooseUpdateCore_timeout (st : TabuSearch) (tabu1 : List (List TrainLine × Nat))
    (choice : Option (WorkingSolution × ℚ)) (prev : ℚ) (time : Nat)
    (st2 : TabuSearch) (sc : WorkingSolution × ℚ)
    (h : chooseUpdateCore st tabu1 choice prev time = Except.ok (st2, some sc)) :
    (prev < sc.2 ∧ st.params.size_adjust < st.tabu_timeout →
      st2.tabu_timeout = st.tabu_timeout - st.params.size_adjust ∧ 0 < st2.tabu_timeout) ∧
    (¬(prev < sc.2 ∧ st.params.size_adjust < st.tabu_timeout) →
      st2.tabu_timeout = st.tabu_timeout + st.params.size_adjust) := by
  cases choice with
  | none =>
    simp only [chooseUpdateCore] at h
    split at h
    · simp at h
    · simp at h
  | some val =>
    simp only [chooseUpdateCore, Except.ok.injEq, Prod.mk.injEq, Option.some.injEq] at h
    obtain ⟨hst, hval⟩ := h
    subst hval
    subst hst
    constructor
    · intro hc
      constructor
      · simp only [if_pos hc]
      · simp only [if_pos hc]
        exact Nat.sub_pos_of_lt hc.2
    · intro hc
      simp only [if_neg hc]

/-! The claim theorems. -/

/-- C1: refuted at a concrete input.  The claim states that every neighbour's
cached `cost` equals the from-scratch `calc_cost` recomputation with each
unordered built pair counted once.  For the working solution `ws1` on `p2`
(one line 0-1, cost 11 = 1 + 10), the clone-a-line neighbour is produced by
`generate_neighbours` with cached cost 21 = 11 + 10, but `calc_cost`
recomputes 22 because it charges each built unordered track pair twice (both
ordered orientations); the two never agree on this neighbour. -/
theorem c1_clone_cost_mismatch :
    cloneLineNeighbour p2 ws1 0 ∈ generateNeighboursFull p2 ws1 (fun _ _ => 0) ∧
    (cloneLineNeighbour p2 ws1 0).cost = 21 ∧
    (cloneLineNeighbour p2 ws1 0).calc_cost p2 = 22 ∧
    (cloneLineNeighbour p2 ws1 0).cost ≠ (cloneLineNeighbour p2 ws1 0).calc_cost p2 := by
  decide

/-- C2 counterexample: on the bidirectional triangle line of `lines3`, a node
at station 2 (the last stop) moving Forward produces a ride successor at
station 0 charged the `track_times` entry between the first and last stop —
the code wraps and charges the wrap edge even for a `Bidirectional` line,
where the claim says it reflects and that entry is never charged. -/
theorem c2_counterexample :
    (lines3.getD 0 default).ty = ScheduleType.Bidirectional ∧
    rideSuccessors p3 lines3 [0, 1] ndw =
      [⟨0, 0, mget p3.track_times 2 0, TravelDirection.Forward, 0, false, 1⟩] ∧
    mget p3.track_times 2 0 = 2 := by decide

/-- C2 amended: the ride step of the evaluator wraps at route ends for every
schedule type: a rider moving Forward at the last stop of its line proceeds
to the first stop and is charged the `track_times` entry between the current
and first stop, with no hypothesis on the schedule type; only the cycle time
used for switch delays distinguishes `Circular` (which adds the wrap entry)
from `Bidirectional` (which does not). -/
theorem c2_forward_wrap (p : Problem) (lines : List TrainLine) (unvisited : List Nat)
    (nd : QueueNode) (l : TrainLine) (k : Nat)
    (hl : lines.getD nd.train default = l)
    (hdir : nd.direction = TravelDirection.Forward)
    (hpos : nd.train_schedule_progress + 1 = l.route.length)
    (hmem : unvisited.contains (l.route.getD 0 0) = true) :
    rideSuccessors p lines unvisited nd =
      [{ station := l.route.getD 0 0, train := nd.train,
         score := nd.score + mget p.track_times nd.station (l.route.getD 0 0),
         direction := TravelDirection.Forward, train_schedule_progress := 0,
         has_switched := false, total_lines := nd.total_lines }] ∧
    cycleTime p ⟨l.route, ScheduleType.Circular, k⟩ =
      cycleTime p ⟨l.route, ScheduleType.Bidirectional, k⟩ +
        mget p.track_times (l.route.getD 0 0) (l.route.getD (l.route.length - 1) 0) := by
  have hnext : nextStationPos lines nd = 0 := by
    unfold nextStationPos
    rw [hl, hdir]
    simp [hpos]
  constructor
  · simp only [rideSuccessors, hnext, hl, hmem, if_true, hdir]
  · simp only [cycleTime, routeTimeSum]
    ring_nf
    simp

/-- C2 witness: the amended wrap theorem instantiated on the concrete
bidirectional triangle line at its last stop. -/
theorem c2_forward_wrap_witness :
    rideSuccessors p3 lines3 [0, 1] ndw =
      [{ station := 0, train := 0,
         score := ndw.score + mget p3.track_times ndw.station 0,
         direction := TravelDirection.Forward, train_schedule_progress := 0,
         has_switched := false, total_lines := ndw.total_lines }] ∧
    cycleTime p3 ⟨[0, 1, 2], ScheduleType.Circular, 1⟩ =
      cycleTime p3 ⟨[0, 1, 2], ScheduleType.Bidirectional, 1⟩ + mget p3.track_times 0 2 :=
  c2_forward_wrap p3 lines3 [0, 1] ndw ⟨[0, 1, 2], ScheduleType.Bidirectional, 1⟩ 1
    (by decide) (by decide) (by decide) (by decide)

/-- C3 counterexample: a concrete expansion path with two switch edges.  With
three parallel bidirectional lines over stations 0 and 1, the seed `n0`
switches to line 1 (node `n1`, a switch edge), rides one stop (node `n2`,
which resets `has_switched`), and then switches again to line 2 (node `n3`, a
second switch edge performed after the first switch), every expanded node
being within the loop's `total_lines` bound. -/
theorem c3_counterexample :
    ExpPath p2 lines3x delays3x n0 n3 2 ∧
    n0.total_lines = 1 ∧ n0.has_switched = false ∧
    n1.has_switched = true ∧ n2.has_switched = false ∧ n3.has_switched = true ∧
    ¬(2 ≤ 1) := by
  refine ⟨?_, by decide, by decide, by decide, by decide, by decide, by decide⟩
  have s1 : ExpPath p2 lines3x delays3x n0 n1 (0 + switchFlag n1) :=
    ExpPath.step n0 n0 n1 0 [0, 1] (ExpPath.refl n0) (by decide) (by decide)
  have s2 : ExpPath p2 lines3x delays3x n0 n2 ((0 + switchFlag n1) + switchFlag n2) :=
    ExpPath.step n0 n1 n2 (0 + switchFlag n1) [0, 1] s1 (by decide) (by decide)
  have s3 : ExpPath p2 lines3x delays3x n0 n3
      (((0 + switchFlag n1) + switchFlag n2) + switchFlag n3) :=
    ExpPath.step n0 n2 n3 ((0 + switchFlag n1) + switchFlag n2) [0, 1] s2 (by decide) (by decide)
  exact s3

/-- C3 amended: a commuter switches lines at most twice per journey, not at
most once.  Riding a stop resets `has_switched`, so switching is re-enabled
after each ride; the loop instead stops expanding nodes whose `total_lines`
reaches 3, so along every path of allowed queue-node expansions from a seed
node (which starts with `total_lines` 1) at most two edges are switch
edges. -/
theorem c3_at_most_two_switches (p : Problem) (lines : List TrainLine) (delays : List ℚ)
    (a b : QueueNode) (k : Nat) (h : ExpPath p lines delays a b k)
    (ha : a.total_lines = 1) : k ≤ 2 := by
  induction h with
  | refl => omega
  | step y z kk uv hp hlt hmem ih =>
    have h1 := ExpPath_total_lines p lines delays a y kk hp
    have h2 := expandNode_total_lines p lines delays uv y z hmem
    have h3 : switchFlag z ≤ 1 := by
      unfold switchFlag
      split <;> omega
    omega

/-- C3 witness: the switch bound instantiated on the trivial expansion path at
the seed node `n0`. -/
theorem c3_at_most_two_switches_witness : n0.total_lines = 1 ∧ (0 : Nat) ≤ 2 :=
  ⟨by decide, c3_at_most_two_switches p2 lines3x delays3x n0 n0 0 (ExpPath.refl n0) (by decide)⟩

/-- C4: refuted at the concrete input the claim fixes.  On the triangle
problem, `big_loop` marks the wrap track 0-2 built unconditionally, for the
`Bidirectional` schedule type as well — contradicting the claim (and the
repository's own `test_big_loop`, which expects exactly the tracks 0-1 and
1-2 for the bidirectional baseline).  The objective values do match the
claim: 25 for the bidirectional line and 30 for the circular one. -/
theorem c4_big_loop_values :
    bget (big_loop p3 ScheduleType.Bidirectional).built_tracks 0 2 = true ∧
    bget (big_loop p3 ScheduleType.Bidirectional).built_tracks 0 1 = true ∧
    bget (big_loop p3 ScheduleType.Bidirectional).built_tracks 1 2 = true ∧
    (big_loop p3 ScheduleType.Bidirectional).obj_value = 25 ∧
    bget (big_loop p3 ScheduleType.Circular).built_tracks 0 2 = true ∧
    (big_loop p3 ScheduleType.Circular).obj_value = 30 := by decide

/-- C5: refuted at a concrete input.  For the working solution `ws2` (lines
0-1 and 1-2, both tracks built), the remove-a-line neighbour dropping line
0-1 is produced by `generate_neighbours` with the original `built_tracks`
still marking track 0-1 built, while the from-scratch recomputation from its
remaining line set leaves 0-1 unbuilt: the code computes the updated matrix
but pushes `self.built_tracks.clone()`. -/
theorem c5_remove_line_stale_tracks :
    removeLineNeighbour p3 ws2 0 ∈ generateNeighboursFull p3 ws2 (fun _ _ => 0) ∧
    (removeLineNeighbour p3 ws2 0).train_lines =
      [⟨[1, 2], ScheduleType.Bidirectional, 1⟩] ∧
    bget (removeLineNeighbour p3 ws2 0).built_tracks 0 1 = true ∧
    bget (builtFromLines 3 (removeLineNeighbour p3 ws2 0).train_lines) 0 1 = false := by
  decide

/-- C6 counterexample: with the triangle problem at total budget 0,
`Solver::solve` with zero improving iterations returns the baseline solution,
whose construction-plus-train cost 16 exceeds the budget — the baseline is
never budget-checked. -/
theorem c6_counterexample :
    ¬((solveIterZero p3b0).totalCost p3b0 ≤ p3b0.total_budget) := by decide

/-- C6 amended: every neighbour surviving the solver's per-iteration filter
has `calc_cost` within the budget, and since `calc_cost` charges every built
ordered pair (each unordered pair twice), with nonnegative track costs the
once-counted from-scratch construction-plus-train cost of each surviving
candidate is also within the budget; the budget guarantee holds for candidates
adopted during iterations, but not for the initial, unchecked baseline. -/
theorem c6_filtered_within_budget (p : Problem) (tabuKeys : List (List TrainLine))
    (nbs : List WorkingSolution) (nb : WorkingSolution)
    (hcost : ∀ i ∈ Finset.range p.n, ∀ j ∈ Finset.range p.n, 0 ≤ mget p.track_costs i j)
    (hmem : nb ∈ allowedNeighbours p tabuKeys nbs) :
    onceCost p nb ≤ p.total_budget := by
  have hcalc : nb.calc_cost p ≤ p.total_budget := by
    have hpred := (List.mem_filter.1 hmem).2
    simp only [Bool.and_eq_true, decide_eq_true_eq] at hpred
    exact hpred.2
  refine le_trans ?_ hcalc
  unfold onceCost WorkingSolution.calc_cost onceTrackCost
  have htrack : (∑ i ∈ Finset.range p.n, ∑ j ∈ Finset.range p.n,
      (if i < j ∧ anyLineUses nb.train_lines i j then mget p.track_costs i j else 0)) ≤
      ∑ i ∈ Finset.range p.n, ∑ j ∈ Finset.range p.n,
        (if anyLineUses nb.train_lines i j then mget p.track_costs i j else 0) := by
    apply Finset.sum_le_sum
    intro i hi
    apply Finset.sum_le_sum
    intro j hj
    by_cases hu : anyLineUses nb.train_lines i j = true
    · by_cases hij : i < j
      · simp [hu, hij]
      · simp only [hu, hij, false_and, if_false, if_true, and_true]
        exact hcost i hi j hj
    · simp [hu]
  linarith

/-- C6 witness: the filter guarantee instantiated on `p2` with the single
clone-a-line candidate of `ws1`. -/
theorem c6_filtered_within_budget_witness :
    (∀ i ∈ Finset.range p2.n, ∀ j ∈ Finset.range p2.n, 0 ≤ mget p2.track_costs i j) ∧
    cloneLineNeighbour p2 ws1 0 ∈ allowedNeighbours p2 [] [cloneLineNeighbour p2 ws1 0] ∧
    onceCost p2 (cloneLineNeighbour p2 ws1 0) ≤ p2.total_budget :=
  ⟨by decide, by decide,
    c6_filtered_within_budget p2 [] [cloneLineNeighbour p2 ws1 0] (cloneLineNeighbour p2 ws1 0)
      (by decide) (by decide)⟩

/-- The once-counted feasibility cost of a solution, as the claim words it:
the sum of built track construction costs over unordered pairs (i strictly
below j) plus the train cost. -/
def Solution.onceFeasCost (s : Solution) (p : Problem) : ℚ :=
  (∑ i ∈ Finset.range p.n, ∑ j ∈ Finset.range p.n,
    (if i < j ∧ bget s.built_tracks i j then mget p.track_costs i j else 0)) +
  (s.n_trains : ℚ) * p.train_price

/-- A solution whose cost is within the triangle problem's budget but whose
route and type lists are inconsistent with `n_trains`. -/
def solBad : Solution :=
  ⟨1, [[false, false, false], [false, false, false], [false, false, false]], [], [], 0⟩

/-- A consistent feasible solution on the triangle problem: the bidirectional
baseline line with tracks 0-1 and 1-2. -/
def solGood : Solution :=
  ⟨1, [[false, true, false], [true, false, true], [false, true, false]], [[0, 1, 2]],
   [ScheduleType.Bidirectional], 25⟩

/-- C7 counterexample: `check_feasibility` is not determined by the budget
check alone — `solBad` has cost 10 within the budget 1000, yet
`check_feasibility` returns false because `n_trains` disagrees with the
lengths of the route and type lists. -/
theorem c7_counterexample :
    Solution.check_feasibility solBad p3 = false ∧
    solBad.feasCost p3 ≤ p3.total_budget := by decide

/-- C7 amended: `check_feasibility` returns true iff `n_trains` equals the
length of the route list, `n_trains` equals the length of the type list, and
the once-counted construction-plus-train cost is within the budget (for
symmetric track costs and built matrix with a zero track-cost diagonal, the
halved full masked sum the code computes equals the once-counted sum). -/
theorem c7_check_feasibility_iff (s : Solution) (p : Problem)
    (hsymC : ∀ i ∈ Finset.range p.n, ∀ j ∈ Finset.range p.n,
      mget p.track_costs i j = mget p.track_costs j i)
    (hsymB : ∀ i ∈ Finset.range p.n, ∀ j ∈ Finset.range p.n,
      bget s.built_tracks i j = bget s.built_tracks j i)
    (hdiag : ∀ i ∈ Finset.range p.n, mget p.track_costs i i = 0) :
    s.check_feasibility p = true ↔
      (s.n_trains = s.train_routes.length ∧ s.n_trains = s.train_types.length ∧
       s.onceFeasCost p ≤ p.total_budget) := by
  have hmask : (∑ i ∈ Finset.range p.n, ∑ j ∈ Finset.range p.n,
      (if bget s.built_tracks i j then (1 : ℚ) else 0) * mget p.track_costs i j) =
      ∑ i ∈ Finset.range p.n, ∑ j ∈ Finset.range p.n,
        (if bget s.built_tracks i j then mget p.track_costs i j else 0) := by
    apply Finset.sum_congr rfl
    intro i _
    apply Finset.sum_congr rfl
    intro j _
    split <;> ring
  have hfc : s.feasCost p = s.onceFeasCost p := by
    unfold Solution.feasCost Solution.onceFeasCost
    rw [hmask,
      half_masked_once p.n (fun i j => bget s.built_tracks i j)
        (fun i j => mget p.track_costs i j) hsymC hsymB hdiag]
  unfold Solution.check_feasibility
  rw [hfc]
  simp only [Bool.and_eq_true, decide_eq_true_eq, and_assoc]

/-- C7 witness: the amended equivalence instantiated on the triangle problem
and the consistent solution `solGood`. -/
theorem c7_check_feasibility_iff_witness :
    solGood.check_feasibility p3 = true ↔
      (solGood.n_trains = solGood.train_routes.length ∧
       solGood.n_trains = solGood.train_types.length ∧
       solGood.onceFeasCost p3 ≤ p3.total_budget) :=
  c7_check_feasibility_iff solGood p3 (by decide) (by decide) (by decide)

/-- The tabu search state with both the timeout and the adjustment step
at 10. -/
def st8 : TabuSearch := TabuSearch.new ⟨10, 10⟩

/-- The state `chooseUpdate` produces from `st8` after choosing `ws1` with a
worse score at time 0: the timeout has grown to 20. -/
def st8after : TabuSearch := ⟨[(ws1.train_lines, 0)], ⟨10, 10⟩, 20⟩

/-- C8 counterexample: with the timeout already at the step size (10), a
chosen score (1) strictly worse than the previous score (0) makes the code
grow the timeout to 20 — the claim says a worse score at or below the floor
leaves the timeout unchanged, never growing it. -/
theorem c8_counterexample :
    chooseUpdate p2 st8 [ws1] 0 0 = Except.ok (st8after, some (ws1, 1)) ∧
    (0 : ℚ) < 1 ∧
    st8after.tabu_timeout = 20 ∧ ¬(st8after.tabu_timeout ≤ st8.tabu_timeout) := by
  refine ⟨rfl, by decide, by decide, by decide⟩

/-- C8 amended: whenever `choose_update` chooses a candidate, the timeout
shrinks by `size_adjust` exactly when the chosen score is strictly worse than
the previous score and the timeout strictly exceeds `size_adjust` (leaving a
positive timeout); in every other case — including a worse score with the
timeout at or below `size_adjust` — it grows by `size_adjust`. -/
theorem c8_timeout_update (p : Problem) (st : TabuSearch) (cands : List WorkingSolution)
    (prev : ℚ) (time : Nat) (st2 : TabuSearch) (sc : WorkingSolution × ℚ)
    (h : chooseUpdate p st cands prev time = Except.ok (st2, some sc)) :
    (prev < sc.2 ∧ st.params.size_adjust < st.tabu_timeout →
      st2.tabu_timeout = st.tabu_timeout - st.params.size_adjust ∧ 0 < st2.tabu_timeout) ∧
    (¬(prev < sc.2 ∧ st.params.size_adjust < st.tabu_timeout) →
      st2.tabu_timeout = st.tabu_timeout + st.params.size_adjust) := by
  simp only [chooseUpdate] at h
  exact chooseUpdateCore_timeout st (tabuRetain st time) _ prev time st2 sc h

/-- C8 witness: the timeout update rule instantiated on the concrete call of
the counterexample state, in the grow branch. -/
theorem c8_timeout_update_witness :
    st8after.tabu_timeout = st8.tabu_timeout + st8.params.size_adjust :=
  (c8_timeout_update p2 st8 [ws1] 0 0 st8after (ws1, 1) rfl).2 (by decide)

/-- C9: refuted at a concrete input.  The claim states that the `Ord`
comparison of queue nodes equals `total_cmp` on their scores; but the code
compares `other.score` with itself, so every pair of nodes compares as equal:
for `qa` (score 0) and `qb` (score 1) the comparison returns `eq` in both
argument orders while the score comparison is `lt`. -/
theorem c9_cmp_constant :
    QueueNode.cmp qa qb = Ordering.eq ∧
    QueueNode.cmp qb qa = Ordering.eq ∧
    compare qa.score qb.score = Ordering.lt := by decide

/-- C10: refuted at a concrete input.  From the freshly constructed tabu
state with `initial_timeout` 5 and `size_adjust` 10 — a reachable state — a
single `choose_update` call with an empty candidate batch reaches the
unguarded `tabu_timeout -= size_adjust` in the all-tabu branch and underflows
(5 - 10 on `usize`), a panic in a debug build, modelled by `Except.error`. -/
theorem c10_none_branch_underflow :
    chooseUpdate p2 (TabuSearch.new ⟨5, 10⟩) [] 0 0 = Except.error () := rfl
